import Mathlib

/-
Verification of the Subspace Outlier Detection (SOD) core of
`pyod/models/sod.py` against its natural-language specification.

Shallow embedding: the feature matrix `X` is a function `Fin n → Fin d → ℚ`
(floating-point arithmetic is modelled exactly over the rationals, with
`Real.sqrt` for the final square root), the k-nearest-neighbour index matrix
is `Fin n → Fin k → ℕ`, and the reference-set index matrix `_count` is
`Fin n → Fin r → Fin n`.  The `uint32` working array `temp` of `_snn_imp`
is modelled over ℕ with values reduced `% 2^32` and `2^32 - 1` as the
self-similarity sentinel, exactly as in the source; `np.argsort` (a stable
argsort) is modelled as the stable sort of `[0, …, n-1]` by the
lexicographic key (value ascending, index ascending), and the NumPy row
assignment `_count[i] = a` succeeds when `a` has length `ref_set` or
broadcasts a length-1 `a` across the row, and errors otherwise.
-/

set_option autoImplicit false

namespace SOD

/-
Section: Subspace Scorer (`SOD._sod`, sod.py lines 186-198).
For point `i`, `refrow : Fin r → Fin n` is row `i` of the reference-set
index matrix `ref_inds` (an `n × ref_set_` matrix, so `r` is `ref_set_`),
and `ref = X[ref_inds[i,],]` is the `r × d` matrix `t j ↦ X (refrow t) j`.
-/

variable {n d r k : ℕ}

/-- Column-wise mean of the reference rows: `means = np.mean(ref, axis=0)`
(sod.py line 189); each column is averaged over the `r` rows. -/
def means (X : Fin n → Fin d → ℚ) (refrow : Fin r → Fin n) (j : Fin d) : ℚ :=
  (∑ t, X (refrow t) j) / (r : ℚ)

/-- Total squared deviation of the reference rows from `means`, divided by
`self.ref_set_` (which equals `r`, the reference-set matrix width):
`var_total = np.sum(np.sum(np.square(ref - means))) / self.ref_set_`
(sod.py line 191). -/
def var_total (X : Fin n → Fin d → ℚ) (refrow : Fin r → Fin n) : ℚ :=
  (∑ t, ∑ j, (X (refrow t) j - means X refrow j) ^ 2) / (r : ℚ)

/-- Expected variance threshold:
`var_expect = self.alpha_ * var_total / X.shape[1]` (sod.py line 192). -/
def var_expect (X : Fin n → Fin d → ℚ) (alpha : ℚ) (refrow : Fin r → Fin n) : ℚ :=
  alpha * var_total X refrow / (d : ℚ)

/-- Population variance of each column of the reference rows:
`var_actual = np.var(ref, axis=0)` (sod.py line 193); `np.var` divides by
the number of rows `r`, not `r - 1`. -/
def var_actual (X : Fin n → Fin d → ℚ) (refrow : Fin r → Fin n) (j : Fin d) : ℚ :=
  (∑ t, (X (refrow t) j - means X refrow j) ^ 2) / (r : ℚ)

/-- Relevant-dimension indicator:
`var_inds = [1 if (j < var_expect) else 0 for j in var_actual]`
(sod.py line 194). -/
def var_inds (X : Fin n → Fin d → ℚ) (alpha : ℚ) (refrow : Fin r → Fin n)
    (j : Fin d) : ℕ :=
  if var_actual X refrow j < var_expect X alpha refrow then 1 else 0

/-- Number of relevant dimensions: `rel_dim = np.sum(var_inds)`
(sod.py line 195). -/
def rel_dim (X : Fin n → Fin d → ℚ) (alpha : ℚ) (refrow : Fin r → Fin n) : ℕ :=
  ∑ j, var_inds X alpha refrow j

/-- Argument of the square root on sod.py lines 197-198:
`np.dot(var_inds, np.square(obs - means)) / rel_dim`.  (In ℚ, division by
zero gives 0, so this is also 0 when `rel_dim = 0`; the source only reads
it under the guard `rel_dim != 0`.) -/
def scoreSq (X : Fin n → Fin d → ℚ) (alpha : ℚ) (refrow : Fin r → Fin n)
    (i : Fin n) : ℚ :=
  (∑ j, (var_inds X alpha refrow j : ℚ) * (X i j - means X refrow j) ^ 2) /
    (rel_dim X alpha refrow : ℚ)

/-- Anomaly score of point `i` (sod.py lines 196-198): the row of
`anomaly_scores` is initialised to 0 and overwritten with
`np.sqrt(np.dot(var_inds, np.square(obs - means)) / rel_dim)` exactly when
`rel_dim != 0`. -/
noncomputable def score (X : Fin n → Fin d → ℚ) (alpha : ℚ)
    (refrow : Fin r → Fin n) (i : Fin n) : ℝ :=
  if rel_dim X alpha refrow ≠ 0 then Real.sqrt (scoreSq X alpha refrow i) else 0

/-- The anomaly score vector built by the loop of `_sod`
(sod.py lines 185-200), as a length-`n` list. -/
noncomputable def anomaly_scores (X : Fin n → Fin d → ℚ) (alpha : ℚ)
    (ref_inds : Fin n → Fin r → Fin n) : List ℝ :=
  (List.finRange n).map (fun i => score X alpha (ref_inds i) i)

/-
Section: spec-side transcriptions.  These definitions are written from the
specification's own words (spec.md section 4.2 / section 8), to be compared
with the source-side definitions above.
-/

/-- Spec-side set of relevant dimensions: dimension `j` is relevant exactly
when the population variance of the reference set in dimension `j` (sum of
squared deviations from the column mean, divided by `ref_set`) is strictly
below `alpha * var_total / d`, where `var_total` is the total squared
deviation over all entries divided by `ref_set`. -/
def specRelevantSet (X : Fin n → Fin d → ℚ) (alpha : ℚ)
    (refrow : Fin r → Fin n) : Finset (Fin d) :=
  Finset.univ.filter (fun j =>
    (∑ t, (X (refrow t) j - (∑ t', X (refrow t') j) / (r : ℚ)) ^ 2) / (r : ℚ) <
      alpha * ((∑ t, ∑ j', (X (refrow t) j' - (∑ t', X (refrow t') j') / (r : ℚ)) ^ 2) / (r : ℚ)) /
        (d : ℚ))

/-- Spec-side score: the root-mean-square deviation of point `i` from the
reference-set column means, restricted to the relevant dimensions —
`sqrt( (sum over relevant dimensions j of (X[i,j] - means[j])^2) / rel_dim )`
with `rel_dim` the number of relevant dimensions. -/
noncomputable def specScore (X : Fin n → Fin d → ℚ) (alpha : ℚ)
    (refrow : Fin r → Fin n) (i : Fin n) : ℝ :=
  Real.sqrt (((∑ j ∈ specRelevantSet X alpha refrow,
      (X i j - (∑ t, X (refrow t) j) / (r : ℚ)) ^ 2) /
    ((specRelevantSet X alpha refrow).card : ℚ) : ℚ))

/-
Section: SNN Reference-Set Builder (`_snn_imp`, sod.py lines 16-40).
-/

/-- Neighbour-index set of point `x`: `set(ind[x])` (sod.py lines 34, 36),
the row of the k-nearest-neighbour index matrix viewed as a set. -/
def rowSet (ind : Fin n → Fin k → ℕ) (x : Fin n) : Finset ℕ :=
  Finset.image (ind x) Finset.univ

/-- Shared-neighbour similarity of points `i` and `j`:
`len(set(ind[j]).intersection(set(ind[i])))` (sod.py line 36). -/
def simCount (ind : Fin n → Fin k → ℕ) (i j : Fin n) : ℕ :=
  (rowSet ind j ∩ rowSet ind i).card

/-- The `uint32` working array `temp` for outer index `i`, after the
overwrite `temp[i] = np.iinfo(np.uint32).max` (sod.py lines 33-37):
entry `j ≠ i` holds the similarity count stored as `uint32`
(reduced `% 2^32`), entry `i` holds the sentinel `2^32 - 1`. -/
def tempRow (ind : Fin n → Fin k → ℕ) (i : Fin n) : Fin n → ℕ := fun j =>
  if j = i then 2 ^ 32 - 1 else simCount ind i j % 2 ^ 32

/-- The total order underlying a stable ascending argsort of the array
`temp`: position `a` comes before position `b` when its value is smaller,
with ties broken by the original (index) order. -/
def lexLe (temp : Fin n → ℕ) (a b : Fin n) : Prop :=
  temp a < temp b ∨ (temp a = temp b ∧ a ≤ b)

instance lexLeDecidable (temp : Fin n → ℕ) : DecidableRel (lexLe temp) := fun a b =>
  inferInstanceAs (Decidable (temp a < temp b ∨ (temp a = temp b ∧ a ≤ b)))

instance lexLeTotal (temp : Fin n → ℕ) : IsTotal (Fin n) (lexLe temp) where
  total a b := by
    rcases lt_trichotomy (temp a) (temp b) with h | h | h
    · exact Or.inl (Or.inl h)
    · rcases le_total a b with hab | hab
      · exact Or.inl (Or.inr ⟨h, hab⟩)
      · exact Or.inr (Or.inr ⟨h.symm, hab⟩)
    · exact Or.inr (Or.inl h)

instance lexLeTrans (temp : Fin n → ℕ) : IsTrans (Fin n) (lexLe temp) where
  trans a b c hab hbc := by
    rcases hab with h1 | ⟨h1, h1'⟩ <;> rcases hbc with h2 | ⟨h2, h2'⟩
    · exact Or.inl (h1.trans h2)
    · exact Or.inl (h2 ▸ h1)
    · exact Or.inl (h1 ▸ h2)
    · exact Or.inr ⟨h1.trans h2, le_trans h1' h2'⟩

/-- Ascending argsort of the array `temp`: `np.argsort(temp)`
(sod.py line 38), modelled as the stable sort of the index list
`[0, …, n-1]` by value (ties keep index order). -/
def argsort (temp : Fin n → ℕ) : List (Fin n) :=
  List.insertionSort (lexLe temp) (List.finRange n)

/-- Row `i` of the similarity ranking before assignment:
`np.argsort(temp)[::-1][1:ref_set_ + 1]` (sod.py line 38) — the descending
argsort with its first entry (the sentinel position `i`) dropped, truncated
to `ref_set_` entries. -/
def snnRowList (ind : Fin n → Fin k → ℕ) (r : ℕ) (i : Fin n) : List (Fin n) :=
  (((argsort (tempRow ind i)).reverse).drop 1).take r

/-- The descending similarity ranking of all candidates other than `i`
(row `i` of the reversed argsort with the leading sentinel entry dropped,
before truncation). -/
def restList (ind : Fin n → Fin k → ℕ) (i : Fin n) : List (Fin n) :=
  ((argsort (tempRow ind i)).dropLast).reverse

/-- NumPy semantics of the row assignment `_count[i] = row` into a row of
width `r` (sod.py line 38): the assignment succeeds when `row` has exactly
`r` entries, broadcasts a single entry across the whole row, and raises
(no value) otherwise. -/
def assignRow {α : Type} (r : ℕ) (row : List α) : Option (Fin r → α) :=
  if h : row.length = r then some (fun t => row.get (Fin.cast h.symm t))
  else
    match row with
    | [x] => some (fun _ => x)
    | _ => none

/-- Model of `_snn_imp` (sod.py lines 16-40): for each point `i`, rank all
points by shared-neighbour similarity to `i` (self forced to the top by the
sentinel), drop the top entry and assign the next `ref_set_` entries to row
`i` of the `n × ref_set_` output matrix; if any row assignment fails, the
whole call raises (no matrix). -/
def snn_imp (ind : Fin n → Fin k → ℕ) (r : ℕ) : Option (Fin n → Fin r → Fin n) :=
  if h : ∀ i, (assignRow r (snnRowList ind r i)).isSome then
    some (fun i => (assignRow r (snnRowList ind r i)).get (h i))
  else none

/-- Model of `_sod` as a pipeline (sod.py lines 175-200): build the
reference-set index matrix with `_snn_imp` from the externally supplied
k-nearest-neighbour index matrix `ind` (the `_snn` collaborator), then
score every point; a failure of the builder propagates. -/
noncomputable def sod (X : Fin n → Fin d → ℚ) (alpha : ℚ)
    (ind : Fin n → Fin k → ℕ) (r : ℕ) : Option (List ℝ) :=
  (snn_imp ind r).map (fun ref_inds => anomaly_scores X alpha ref_inds)

/-
Section: detector construction and fit/score entry points
(`SOD.__init__`, `SOD.fit`, `SOD.decision_function`, sod.py lines 90-157).
-/

/-- Detector state: the four configuration fields fixed at construction and
the three attributes populated by `fit` (`decision_scores_`, and the
`threshold_`/`labels_` pair written by the external post-processing step). -/
structure SODModel where
  contamination : ℚ
  n_neighbors_ : ℤ
  ref_set_ : ℤ
  alpha_ : ℚ
  decision_scores_ : Option (List ℝ)
  threshold_ : Option ℝ
  labels_ : Option (List ℕ)

/-- Constructor model for `SOD.__init__` (sod.py lines 90-113).  The range
checker `check_parameter` of `pyod.utils.utility` and the `contamination`
check of `BaseDetector.__init__` are not part of this repository snapshot.
Modelled from the spec: reject `contamination` outside the open interval
(0, 0.5); reject a non-positive `n_neighbors`; reject `ref_set` outside
`[1, n_neighbors)` — the spec's configuration-time invariant
`ref_set < n_neighbors`, matching the source docstring "ref_set must be
smaller than n_neighbors"; reject `alpha` outside the open interval (0, 1).
Integrality of `n_neighbors` and `ref_set` (the `isinstance` checks) is
enforced by the type ℤ.  The checks run in source order (`contamination`
first, via the base-class constructor); on failure no detector state is
produced. -/
def mkSOD (contamination : ℚ) (n_neighbors ref_set : ℤ) (alpha : ℚ) :
    Except String SODModel :=
  if ¬(0 < contamination ∧ contamination < 1/2) then
    Except.error "contamination out of range"
  else if ¬(1 ≤ n_neighbors) then
    Except.error "n_neighbors out of range"
  else if ¬(1 ≤ ref_set ∧ ref_set < n_neighbors) then
    Except.error "ref_set out of range"
  else if ¬(0 < alpha ∧ alpha < 1) then
    Except.error "alpha out of range"
  else
    Except.ok ⟨contamination, n_neighbors, ref_set, alpha, none, none, none⟩

open Classical in
/-- Modelled from the spec: the thresholding collaborator's scalar output
(spec.md section 6) — the value at the `contamination`-quantile from the
top of the score distribution, here the `⌈contamination · n⌉`-th largest
score. -/
noncomputable def specThreshold (scores : List ℝ) (contamination : ℚ) : ℝ :=
  (List.insertionSort (fun a b : ℝ => b ≤ a) scores).getD
    ((⌈contamination * (scores.length : ℚ)⌉).toNat - 1) 0

open Classical in
/-- Modelled from the spec: `_process_decision_scores` of the external base
class (spec.md section 6, thresholding collaborator) computes the threshold
from the stored decision scores and `contamination`, and the binary labels
(1 when the score is at least the threshold, else 0). -/
noncomputable def processDecisionScores (m : SODModel) : SODModel :=
  match m.decision_scores_ with
  | none => m
  | some scores =>
      { m with
        threshold_ := some (specThreshold scores m.contamination),
        labels_ := some (scores.map (fun s =>
          if specThreshold scores m.contamination ≤ s then 1 else 0)) }

/-- Model of `SOD.decision_function` (sod.py lines 140-157): returns
`self._sod(X)` — the scoring pipeline on the validated input, with the
k-nearest-neighbour index matrix `ind` supplied by the external
neighbour-search collaborator — and assigns no attribute, so the receiver
state is returned unchanged. -/
noncomputable def decision_function (m : SODModel) (X : Fin n → Fin d → ℚ)
    (ind : Fin n → Fin k → ℕ) : Option (List ℝ) × SODModel :=
  (sod X m.alpha_ ind m.ref_set_.toNat, m)

/-- Model of `SOD.fit` (sod.py lines 115-138): validates `X` (external
collaborator), stores the value of `decision_function(X)` in
`decision_scores_`, runs `_process_decision_scores` and returns the updated
detector itself; a failure of the scoring pipeline propagates and no state
is produced. -/
noncomputable def fit (m : SODModel) (X : Fin n → Fin d → ℚ)
    (ind : Fin n → Fin k → ℕ) : Option SODModel :=
  ((decision_function m X ind).1).map (fun scores =>
    processDecisionScores { m with decision_scores_ := some scores })

/-
Section: concrete instances used by witnesses and counterexamples.
-/

/-- Feature matrix (3 points, 1 dimension) whose rows 1 and 2 are identical:
the reference set {1, 2} of point 0 is degenerate. -/
def Xdeg : Fin 3 → Fin 1 → ℚ := ![![0], ![5], ![5]]

/-- Reference row (1, 2) for point 0 of `Xdeg`. -/
def refDeg : Fin 2 → Fin 3 := ![1, 2]

/-- Feature matrix (3 points, 2 dimensions) for which point 0's reference
set {1, 2} has one relevant dimension (column 0) under `alpha = 1/2`. -/
def Xrel : Fin 3 → Fin 2 → ℚ := ![![10, 0], ![0, 0], ![0, 4]]

/-- Reference row (1, 2) for point 0 of `Xrel`. -/
def refRel : Fin 2 → Fin 3 := ![1, 2]

/-- Feature matrix (3 points, 1 dimension) with a non-degenerate reference
set {1, 2} for point 0: with d = 1 and `alpha < 1` no dimension is
relevant. -/
def Xnone : Fin 3 → Fin 1 → ℚ := ![![0], ![1], ![3]]

/-- Reference row (1, 2) for point 0 of `Xnone`. -/
def refNone : Fin 2 → Fin 3 := ![1, 2]

/-- Feature matrix (3 points, 2 dimensions) for the score-vector safety
witness. -/
def Xsafe : Fin 3 → Fin 2 → ℚ := ![![1, 2], ![3, 4], ![5, 6]]

/-- Reference-set index matrix (3 × 2) for the score-vector safety
witness. -/
def refSafe : Fin 3 → Fin 2 → Fin 3 := ![![1, 2], ![0, 2], ![0, 1]]

/-- Neighbour index matrix with n = 2 points and k = 1 neighbours. -/
def indTwo : Fin 2 → Fin 1 → ℕ := ![![1], ![0]]

/-- Neighbour index matrix with n = 3 points and k = 2 neighbours. -/
def indThree : Fin 3 → Fin 2 → ℕ := ![![1, 2], ![0, 2], ![0, 1]]

/-- Neighbour index matrix with n = 4 points and k = 2 neighbours. -/
def indFour : Fin 4 → Fin 2 → ℕ := ![![1, 2], ![2, 3], ![1, 3], ![0, 1]]

/-
Section: helper lemmas for the Subspace Scorer.
-/

lemma mem_specRelevantSet (X : Fin n → Fin d → ℚ) (alpha : ℚ)
    (refrow : Fin r → Fin n) (j : Fin d) :
    j ∈ specRelevantSet X alpha refrow ↔
      var_actual X refrow j < var_expect X alpha refrow := by
  simp only [specRelevantSet, Finset.mem_filter, Finset.mem_univ, true_and]
  rfl

lemma var_inds_eq_ite (X : Fin n → Fin d → ℚ) (alpha : ℚ)
    (refrow : Fin r → Fin n) (j : Fin d) :
    var_inds X alpha refrow j = if j ∈ specRelevantSet X alpha refrow then 1 else 0 := by
  simp only [var_inds, mem_specRelevantSet]

lemma rel_dim_eq_card (X : Fin n → Fin d → ℚ) (alpha : ℚ) (refrow : Fin r → Fin n) :
    rel_dim X alpha refrow = (specRelevantSet X alpha refrow).card := by
  unfold rel_dim specRelevantSet
  rw [Finset.card_filter]
  exact Finset.sum_congr rfl (fun j _ => rfl)

lemma scoreSq_eq_spec (X : Fin n → Fin d → ℚ) (alpha : ℚ)
    (refrow : Fin r → Fin n) (i : Fin n) :
    scoreSq X alpha refrow i =
      (∑ j ∈ specRelevantSet X alpha refrow,
        (X i j - (∑ t, X (refrow t) j) / (r : ℚ)) ^ 2) /
        ((specRelevantSet X alpha refrow).card : ℚ) := by
  unfold scoreSq
  rw [rel_dim_eq_card]
  congr 1
  have key : ∀ j, (var_inds X alpha refrow j : ℚ) * (X i j - means X refrow j) ^ 2 =
      if j ∈ specRelevantSet X alpha refrow then
        (X i j - (∑ t, X (refrow t) j) / (r : ℚ)) ^ 2 else 0 := by
    intro j
    rw [var_inds_eq_ite]
    by_cases h : j ∈ specRelevantSet X alpha refrow <;> simp [h, means]
  rw [Finset.sum_congr rfl (fun j _ => key j), Finset.sum_ite_mem, Finset.univ_inter]

lemma scoreSq_nonneg (X : Fin n → Fin d → ℚ) (alpha : ℚ)
    (refrow : Fin r → Fin n) (i : Fin n) : 0 ≤ scoreSq X alpha refrow i := by
  unfold scoreSq
  apply div_nonneg
  · apply Finset.sum_nonneg
    intro j _
    exact mul_nonneg (by positivity) (sq_nonneg _)
  · exact Nat.cast_nonneg _

lemma score_eq_sqrt (X : Fin n → Fin d → ℚ) (alpha : ℚ)
    (refrow : Fin r → Fin n) (i : Fin n) :
    score X alpha refrow i = Real.sqrt (scoreSq X alpha refrow i) := by
  unfold score
  by_cases h : rel_dim X alpha refrow ≠ 0
  · rw [if_pos h]
  · rw [if_neg h]
    push_neg at h
    unfold scoreSq
    rw [h]
    simp

/-
Section: claims about the Subspace Scorer.
-/

/-- Claim C2 (confirmed): for every point `i` with at least one relevant
dimension, the anomaly score equals
`sqrt((sum over relevant dimensions j of (X[i,j] - means[j])^2) / rel_dim)`,
where `means` is the column-wise mean of the reference set, `var_total` is
the total squared deviation divided by `ref_set`, `var_expect` is
`alpha * var_total / d`, and dimension `j` is relevant exactly when its
population variance (divide by `ref_set`) is strictly below `var_expect`
(`rel_dim` being the number of relevant dimensions). -/
theorem C2_score_is_relevant_subspace_rms (X : Fin n → Fin d → ℚ) (alpha : ℚ)
    (refrow : Fin r → Fin n) (i : Fin n)
    (_hrel : 0 < rel_dim X alpha refrow) :
    score X alpha refrow i = specScore X alpha refrow i ∧
    rel_dim X alpha refrow = (specRelevantSet X alpha refrow).card := by
  refine ⟨?_, rel_dim_eq_card X alpha refrow⟩
  rw [score_eq_sqrt, scoreSq_eq_spec]
  rfl

/-- Witness for C2: on `Xrel` with `alpha = 1/2`, point 0 has exactly one
relevant dimension and its score matches the spec-side formula. -/
theorem C2_witness :
    0 < rel_dim Xrel (1/2) refRel ∧
    score Xrel (1/2) refRel 0 = specScore Xrel (1/2) refRel 0 := by
  have h : rel_dim Xrel (1/2) refRel = 1 := by
    simp only [rel_dim, var_inds, Fin.sum_univ_succ, Fin.sum_univ_zero]
    norm_num [var_actual, var_expect, var_total, means, Fin.sum_univ_succ,
      Matrix.vecHead, Matrix.vecTail, Xrel, refRel]
  exact ⟨by rw [h]; norm_num,
    (C2_score_is_relevant_subspace_rms Xrel (1/2) refRel 0 (by rw [h]; norm_num)).1⟩

/-- Claim C3 (confirmed): `rel_dim = 0` holds exactly when no dimension has
population variance strictly below `var_expect`, and in that case the
anomaly score of point `i` is the defined value 0 (the division guarded by
`rel_dim != 0` is never taken). -/
theorem C3_rel_dim_zero_gives_zero_score (X : Fin n → Fin d → ℚ) (alpha : ℚ)
    (refrow : Fin r → Fin n) (i : Fin n) :
    (rel_dim X alpha refrow = 0 ↔
      ∀ j, var_expect X alpha refrow ≤ var_actual X refrow j) ∧
    (rel_dim X alpha refrow = 0 → score X alpha refrow i = 0) := by
  constructor
  · unfold rel_dim
    rw [Finset.sum_eq_zero_iff]
    constructor
    · intro h j
      have hj := h j (Finset.mem_univ j)
      unfold var_inds at hj
      by_contra hc
      push_neg at hc
      rw [if_pos hc] at hj
      exact one_ne_zero hj
    · intro h j _
      unfold var_inds
      rw [if_neg (not_lt.mpr (h j))]
  · intro h
    simp [score, h]

/-- Witness for C3: on `Xnone` (one dimension, non-degenerate reference
set, `alpha = 4/5`) point 0 has no relevant dimension and score 0. -/
theorem C3_witness :
    rel_dim Xnone (4/5) refNone = 0 ∧ score Xnone (4/5) refNone 0 = 0 := by
  have h : rel_dim Xnone (4/5) refNone = 0 := by
    norm_num [rel_dim, var_inds, var_actual, var_expect, var_total, means,
      Fin.sum_univ_succ, Matrix.vecHead, Matrix.vecTail, Xnone, refNone]
  exact ⟨h, (C3_rel_dim_zero_gives_zero_score Xnone (4/5) refNone 0).2 h⟩

/-- Claim C1 (corrected): if all reference points of `i` are identical
(zero variance in every dimension), then — because the source marks a
dimension relevant only when its variance is STRICTLY below
`var_expect = alpha * 0 / d = 0` — no dimension is relevant (`rel_dim = 0`,
not `rel_dim = d`) and the score of `i` is 0, not the full-dimensional
root-mean-square distance from the mean. -/
theorem C1_degenerate_ref_set_no_relevant_dims (X : Fin n → Fin d → ℚ)
    (alpha : ℚ) (refrow : Fin r → Fin n) (i : Fin n) (hr : 0 < r)
    (hdeg : ∀ t t' : Fin r, ∀ j, X (refrow t) j = X (refrow t') j) :
    rel_dim X alpha refrow = 0 ∧ score X alpha refrow i = 0 := by
  have t0 : Fin r := ⟨0, hr⟩
  have hmean : ∀ j, means X refrow j = X (refrow t0) j := by
    intro j
    unfold means
    rw [Finset.sum_congr rfl (fun t _ => hdeg t t0 j), Finset.sum_const,
      Finset.card_univ, Fintype.card_fin, nsmul_eq_mul,
      mul_div_cancel_left₀ _ (Nat.cast_ne_zero.mpr hr.ne')]
  have hdev : ∀ t j, X (refrow t) j - means X refrow j = 0 := fun t j => by
    rw [hmean j, hdeg t t0 j, sub_self]
  have hva : ∀ j, var_actual X refrow j = 0 := by
    intro j
    unfold var_actual
    rw [Finset.sum_eq_zero (fun t _ => by rw [hdev t j]; ring), zero_div]
  have hvt : var_total X refrow = 0 := by
    unfold var_total
    rw [Finset.sum_eq_zero
      (fun t _ => Finset.sum_eq_zero (fun j _ => by rw [hdev t j]; ring)), zero_div]
  have hve : var_expect X alpha refrow = 0 := by
    unfold var_expect
    rw [hvt]
    ring
  have hrel : rel_dim X alpha refrow = 0 := by
    unfold rel_dim
    apply Finset.sum_eq_zero
    intro j _
    unfold var_inds
    rw [hva j, hve, if_neg (lt_irrefl 0)]
  exact ⟨hrel, by simp [score, hrel]⟩

/-- Witness for C1 (amended): on `Xdeg` the reference set {1, 2} of point 0
is degenerate, no dimension is relevant and the score is 0. -/
theorem C1_witness :
    (0 < 2) ∧
    (∀ t t' : Fin 2, ∀ j : Fin 1, Xdeg (refDeg t) j = Xdeg (refDeg t') j) ∧
    rel_dim Xdeg (4/5) refDeg = 0 ∧ score Xdeg (4/5) refDeg 0 = 0 := by
  have hdeg : ∀ t t' : Fin 2, ∀ j : Fin 1, Xdeg (refDeg t) j = Xdeg (refDeg t') j := by
    intro t t' j
    fin_cases t <;> fin_cases t' <;> rfl
  exact ⟨by norm_num, hdeg,
    (C1_degenerate_ref_set_no_relevant_dims Xdeg (4/5) refDeg 0 (by norm_num) hdeg).1,
    (C1_degenerate_ref_set_no_relevant_dims Xdeg (4/5) refDeg 0 (by norm_num) hdeg).2⟩

/-- Counterexample for C1 as stated: on `Xdeg` point 0's reference set is
degenerate (rows 1 and 2 are identical), yet `rel_dim` is 0 — not `d = 1`
as the claim asserts — and the score is 0, not the (strictly positive)
full-dimensional root-mean-square distance `sqrt((1/d)·Σ (X[i,j]-means[j])²)`. -/
theorem C1_counterexample :
    (∀ t t' : Fin 2, ∀ j : Fin 1, Xdeg (refDeg t) j = Xdeg (refDeg t') j) ∧
    rel_dim Xdeg (4/5) refDeg ≠ 1 ∧
    score Xdeg (4/5) refDeg 0 ≠
      Real.sqrt ((((1 : ℚ)/1) * (Xdeg 0 0 - means Xdeg refDeg 0) ^ 2 : ℚ)) := by
  have hdeg : ∀ t t' : Fin 2, ∀ j : Fin 1, Xdeg (refDeg t) j = Xdeg (refDeg t') j := by
    intro t t' j
    fin_cases t <;> fin_cases t' <;> rfl
  have hrel : rel_dim Xdeg (4/5) refDeg = 0 := by
    norm_num [rel_dim, var_inds, var_actual, var_expect, var_total, means,
      Fin.sum_univ_succ, Matrix.vecHead, Matrix.vecTail, Xdeg, refDeg]
  have hmean : means Xdeg refDeg 0 = 5 := by
    norm_num [means, Fin.sum_univ_succ, Matrix.vecHead, Matrix.vecTail, Xdeg, refDeg]
  have hscore : score Xdeg (4/5) refDeg 0 = 0 := by
    simp [score, hrel]
  refine ⟨hdeg, by rw [hrel]; norm_num, ?_⟩
  rw [hscore]
  have hpos : (0:ℝ) < Real.sqrt ((((1 : ℚ)/1) * (Xdeg 0 0 - means Xdeg refDeg 0) ^ 2 : ℚ)) := by
    apply Real.sqrt_pos.mpr
    rw [hmean]
    norm_num [Xdeg]
  exact fun h0 => absurd h0.symm (ne_of_gt hpos)

/-- Claim C7 (confirmed): for every feature matrix and reference-set index
matrix the score vector has exactly `n` entries, every entry is
non-negative, the argument of the square root is always non-negative, and
every score is the real square root of that (guarded) argument — so no
undefined value arises. -/
theorem C7_score_vector_safe (X : Fin n → Fin d → ℚ) (alpha : ℚ)
    (ref_inds : Fin n → Fin r → Fin n) :
    (anomaly_scores X alpha ref_inds).length = n ∧
    (∀ s ∈ anomaly_scores X alpha ref_inds, 0 ≤ s) ∧
    (∀ i, 0 ≤ scoreSq X alpha (ref_inds i) i ∧
      score X alpha (ref_inds i) i = Real.sqrt (scoreSq X alpha (ref_inds i) i)) := by
  refine ⟨by simp [anomaly_scores], ?_,
    fun i => ⟨scoreSq_nonneg _ _ _ _, score_eq_sqrt _ _ _ _⟩⟩
  intro s hs
  obtain ⟨i, -, rfl⟩ := List.mem_map.mp hs
  rw [score_eq_sqrt]
  exact Real.sqrt_nonneg _

/-- Witness for C7: the score vector of `Xsafe` has 3 entries and its first
entry is non-negative. -/
theorem C7_witness :
    (anomaly_scores Xsafe (1/2) refSafe).length = 3 ∧
    0 ≤ score Xsafe (1/2) (refSafe 0) 0 := by
  refine ⟨(C7_score_vector_safe Xsafe (1/2) refSafe).1, ?_⟩
  exact (C7_score_vector_safe Xsafe (1/2) refSafe).2.1 _
    (List.mem_map_of_mem _ (List.mem_finRange 0))

/-
Section: helper lemmas for the SNN Reference-Set Builder.
-/

lemma argsort_perm (temp : Fin n → ℕ) : (argsort temp).Perm (List.finRange n) :=
  List.perm_insertionSort _ _

lemma argsort_sorted (temp : Fin n → ℕ) : (argsort temp).Sorted (lexLe temp) :=
  List.sorted_insertionSort _ _

lemma argsort_nodup (temp : Fin n → ℕ) : (argsort temp).Nodup :=
  ((argsort_perm temp).nodup_iff).mpr (List.nodup_finRange n)

lemma mem_argsort (temp : Fin n → ℕ) (a : Fin n) : a ∈ argsort temp :=
  ((argsort_perm temp).mem_iff).mpr (List.mem_finRange a)

lemma argsort_length (temp : Fin n → ℕ) : (argsort temp).length = n := by
  rw [(argsort_perm temp).length_eq, List.length_finRange]

lemma simCount_le_k (ind : Fin n → Fin k → ℕ) (i j : Fin n) : simCount ind i j ≤ k := by
  unfold simCount rowSet
  calc (Finset.image (ind j) Finset.univ ∩ Finset.image (ind i) Finset.univ).card
      ≤ (Finset.image (ind j) Finset.univ).card :=
        Finset.card_le_card Finset.inter_subset_left
    _ ≤ Finset.univ.card := Finset.card_image_le
    _ = k := by simp

lemma tempRow_self (ind : Fin n → Fin k → ℕ) (i : Fin n) :
    tempRow ind i i = 2 ^ 32 - 1 := if_pos rfl

lemma tempRow_eq_simCount (ind : Fin n → Fin k → ℕ) (i j : Fin n)
    (hk : k < 2 ^ 32 - 1) (hj : j ≠ i) :
    tempRow ind i j = simCount ind i j := by
  unfold tempRow
  rw [if_neg hj]
  exact Nat.mod_eq_of_lt
    (lt_of_le_of_lt (simCount_le_k ind i j) (hk.trans (by norm_num)))

lemma tempRow_lt_sentinel (ind : Fin n → Fin k → ℕ) (i j : Fin n)
    (hk : k < 2 ^ 32 - 1) (hj : j ≠ i) :
    tempRow ind i j < 2 ^ 32 - 1 := by
  rw [tempRow_eq_simCount ind i j hk hj]
  exact lt_of_le_of_lt (simCount_le_k ind i j) hk

lemma reverse_drop_one {α : Type} (l : List α) :
    l.reverse.drop 1 = l.dropLast.reverse := by
  rcases eq_or_ne l [] with h | h
  · subst h
    rfl
  · conv_lhs => rw [← List.dropLast_append_getLast h]
    rw [List.reverse_append, List.reverse_singleton, List.singleton_append,
      List.drop_one, List.tail_cons]

lemma snnRowList_eq_take (ind : Fin n → Fin k → ℕ) (r : ℕ) (i : Fin n) :
    snnRowList ind r i = (restList ind i).take r := by
  unfold snnRowList restList
  rw [reverse_drop_one]

lemma restList_length (ind : Fin n → Fin k → ℕ) (i : Fin n) :
    (restList ind i).length = n - 1 := by
  unfold restList
  rw [List.length_reverse, List.length_dropLast, argsort_length]

lemma snnRowList_length (ind : Fin n → Fin k → ℕ) (r : ℕ) (i : Fin n) :
    (snnRowList ind r i).length = min r (n - 1) := by
  rw [snnRowList_eq_take, List.length_take, restList_length]

lemma argsort_getLast (ind : Fin n → Fin k → ℕ) (i : Fin n)
    (hk : k < 2 ^ 32 - 1) (hne : argsort (tempRow ind i) ≠ []) :
    (argsort (tempRow ind i)).getLast hne = i := by
  by_contra hx
  have hi : i ∈ argsort (tempRow ind i) := mem_argsort _ i
  have hidrop : i ∈ (argsort (tempRow ind i)).dropLast := by
    rw [← List.dropLast_append_getLast hne] at hi
    rcases List.mem_append.mp hi with h | h
    · exact h
    · exact absurd (List.mem_singleton.mp h).symm hx
  have hpw : (argsort (tempRow ind i)).Pairwise (lexLe (tempRow ind i)) :=
    argsort_sorted (tempRow ind i)
  rw [← List.dropLast_append_getLast hne] at hpw
  have hrel : lexLe (tempRow ind i) i ((argsort (tempRow ind i)).getLast hne) :=
    (List.pairwise_append.mp hpw).2.2 i hidrop _ (List.mem_singleton.mpr rfl)
  have hlt : tempRow ind i ((argsort (tempRow ind i)).getLast hne) < tempRow ind i i := by
    rw [tempRow_self]
    exact tempRow_lt_sentinel ind i _ hk hx
  rcases hrel with h | ⟨h, -⟩
  · exact absurd h (not_lt.mpr hlt.le)
  · exact absurd hlt (by rw [h]; exact lt_irrefl _)

lemma reverse_argsort_eq_cons (ind : Fin n → Fin k → ℕ) (i : Fin n)
    (hk : k < 2 ^ 32 - 1) :
    (argsort (tempRow ind i)).reverse = i :: restList ind i := by
  have hne : argsort (tempRow ind i) ≠ [] := by
    intro h
    have hlen := argsort_length (tempRow ind i)
    rw [h, List.length_nil] at hlen
    exact i.pos.ne' hlen.symm
  conv_lhs => rw [← List.dropLast_append_getLast hne]
  rw [List.reverse_append, List.reverse_singleton, List.singleton_append,
    argsort_getLast ind i hk hne]
  rfl

lemma restList_pairwise (ind : Fin n → Fin k → ℕ) (i : Fin n) :
    (restList ind i).Pairwise (fun a b => lexLe (tempRow ind i) b a) := by
  unfold restList
  rw [List.pairwise_reverse]
  exact (argsort_sorted (tempRow ind i)).sublist (List.dropLast_sublist _)

lemma restList_nodup (ind : Fin n → Fin k → ℕ) (i : Fin n) (hk : k < 2 ^ 32 - 1) :
    (restList ind i).Nodup ∧ i ∉ restList ind i := by
  have hr : ((argsort (tempRow ind i)).reverse).Nodup := by
    rw [List.nodup_reverse]
    exact argsort_nodup (tempRow ind i)
  rw [reverse_argsort_eq_cons ind i hk] at hr
  exact ⟨(List.nodup_cons.mp hr).2, (List.nodup_cons.mp hr).1⟩

lemma mem_restList (ind : Fin n → Fin k → ℕ) (i : Fin n) (hk : k < 2 ^ 32 - 1)
    (j : Fin n) (hj : j ≠ i) : j ∈ restList ind i := by
  have hmem : j ∈ (argsort (tempRow ind i)).reverse := by
    rw [List.mem_reverse]
    exact mem_argsort _ j
  rw [reverse_argsort_eq_cons ind i hk] at hmem
  rcases List.mem_cons.mp hmem with h | h
  · exact absurd h hj
  · exact h

lemma ofFn_get_cast {α : Type} {m : ℕ} (row : List α) (h : row.length = m) :
    List.ofFn (fun t : Fin m => row.get (Fin.cast h.symm t)) = row := by
  apply List.ext_get (by simp [h])
  intro t h1 h2
  simp

lemma assignRow_of_length {α : Type} {m : ℕ} (row : List α) (h : row.length = m) :
    assignRow m row = some (fun t => row.get (Fin.cast h.symm t)) := by
  unfold assignRow
  rw [dif_pos h]

lemma assignRow_eq_none {α : Type} (m : ℕ) (row : List α)
    (h1 : row.length ≠ m) (h2 : row.length ≠ 1) : assignRow m row = none := by
  unfold assignRow
  rw [dif_neg h1]
  rcases row with - | ⟨x, - | ⟨y, t⟩⟩
  · rfl
  · exact absurd rfl h2
  · rfl

lemma snn_imp_isSome_of_lengths (ind : Fin n → Fin k → ℕ) (r : ℕ)
    (hlen : ∀ i : Fin n, (snnRowList ind r i).length = r) :
    (snn_imp ind r).isSome := by
  have hall : ∀ i, (assignRow r (snnRowList ind r i)).isSome := by
    intro i
    rw [assignRow_of_length _ (hlen i)]
    rfl
  unfold snn_imp
  rw [dif_pos hall]
  rfl

lemma snn_imp_rows (ind : Fin n → Fin k → ℕ) (r : ℕ)
    (refs : Fin n → Fin r → Fin n) (hrefs : snn_imp ind r = some refs)
    (i : Fin n) (hlen : (snnRowList ind r i).length = r) :
    List.ofFn (refs i) = snnRowList ind r i := by
  unfold snn_imp at hrefs
  by_cases hall : ∀ i', (assignRow r (snnRowList ind r i')).isSome
  · rw [dif_pos hall] at hrefs
    have hfun := Option.some.inj hrefs
    rw [← hfun]
    have ha := assignRow_of_length (snnRowList ind r i) hlen
    simp only [ha, Option.get_some]
    exact ofFn_get_cast _ hlen
  · rw [dif_neg hall] at hrefs
    exact absurd hrefs (by simp)

/-
Section: claims about the SNN Reference-Set Builder.
-/

/-- Claim C4 (confirmed): for `r < k`, `n > r` (and row values that fit a
`uint32`, i.e. `k < 2^32 - 1` so that similarity counts stay strictly below
the sentinel), row `i` of the builder's output is exactly the top-`r`
ranking by shared-neighbour similarity to `i`: it has `r` distinct entries,
never contains `i` itself, is ordered from most to least similar, and every
non-selected candidate `j ≠ i` has similarity at most that of every
selected entry; the output matrix rows coincide with these ranking
prefixes. -/
theorem C4_rows_are_top_r_by_similarity (ind : Fin n → Fin k → ℕ) (r : ℕ)
    (i : Fin n) (_hrk : r < k) (hrn : r < n) (hk : k < 2 ^ 32 - 1) :
    (snnRowList ind r i).length = r ∧
    (snnRowList ind r i).Nodup ∧
    i ∉ snnRowList ind r i ∧
    (snnRowList ind r i).Pairwise
      (fun a b => simCount ind i b ≤ simCount ind i a) ∧
    (∀ j : Fin n, j ∉ snnRowList ind r i → j ≠ i →
      ∀ s ∈ snnRowList ind r i, simCount ind i j ≤ simCount ind i s) ∧
    (∀ refs, snn_imp ind r = some refs →
      List.ofFn (refs i) = snnRowList ind r i) := by
  have hlen : (snnRowList ind r i).length = r := by
    rw [snnRowList_length]
    omega
  have hsub : List.Sublist (snnRowList ind r i) (restList ind i) := by
    rw [snnRowList_eq_take]
    exact List.take_sublist r _
  have hnodup : (snnRowList ind r i).Nodup :=
    hsub.nodup (restList_nodup ind i hk).1
  have hni : i ∉ snnRowList ind r i :=
    fun hmem => (restList_nodup ind i hk).2 (hsub.subset hmem)
  have hmemne : ∀ a ∈ snnRowList ind r i, a ≠ i :=
    fun a ha h => hni (h ▸ ha)
  have hpw0 : (snnRowList ind r i).Pairwise
      (fun a b => lexLe (tempRow ind i) b a) :=
    (restList_pairwise ind i).sublist hsub
  have hpw : (snnRowList ind r i).Pairwise
      (fun a b => simCount ind i b ≤ simCount ind i a) := by
    refine hpw0.imp_of_mem ?_
    intro a b ha hb hab
    have hta : tempRow ind i a = simCount ind i a :=
      tempRow_eq_simCount ind i a hk (hmemne a ha)
    have htb : tempRow ind i b = simCount ind i b :=
      tempRow_eq_simCount ind i b hk (hmemne b hb)
    rcases hab with h | ⟨h, -⟩
    · rw [hta, htb] at h
      exact h.le
    · rw [hta, htb] at h
      exact h.le
  refine ⟨hlen, hnodup, hni, hpw, ?_, ?_⟩
  · intro j hjn hji s hs
    have hjrest : j ∈ restList ind i := mem_restList ind i hk j hji
    have hsne : s ≠ i := hmemne s hs
    have hjdrop : j ∈ (restList ind i).drop r := by
      rw [← List.take_append_drop r (restList ind i)] at hjrest
      rcases List.mem_append.mp hjrest with h | h
      · rw [← snnRowList_eq_take] at h
        exact absurd h hjn
      · exact h
    have hpwrest := restList_pairwise ind i
    rw [← List.take_append_drop r (restList ind i)] at hpwrest
    have hrel : lexLe (tempRow ind i) j s := by
      refine (List.pairwise_append.mp hpwrest).2.2 s ?_ j hjdrop
      rw [← snnRowList_eq_take]
      exact hs
    have htj : tempRow ind i j = simCount ind i j :=
      tempRow_eq_simCount ind i j hk hji
    have hts : tempRow ind i s = simCount ind i s :=
      tempRow_eq_simCount ind i s hk hsne
    rcases hrel with h | ⟨h, -⟩
    · rw [htj, hts] at h
      exact h.le
    · rw [htj, hts] at h
      exact h.le
  · intro refs hrefs
    exact snn_imp_rows ind r refs hrefs i hlen

/-- Witness for C4: on `indFour` (n = 4, k = 2) with `r = 1`, row 0 of the
ranking has one entry, does not contain 0, and the builder succeeds. -/
theorem C4_witness :
    (snnRowList indFour 1 0).length = 1 ∧
    (0 : Fin 4) ∉ snnRowList indFour 1 0 ∧
    (∀ refs, snn_imp indFour 1 = some refs →
      List.ofFn (refs 0) = snnRowList indFour 1 0) := by
  have h := C4_rows_are_top_r_by_similarity indFour 1 0
    (by norm_num) (by norm_num) (by norm_num)
  exact ⟨h.1, h.2.2.1, h.2.2.2.2.2⟩

/-- Claim C5 (confirmed): for every input with enough points (`n > r`) and
`uint32`-sized rows (`k < 2^32 - 1`), the builder succeeds and every row
`i` of its output matrix consists of `r` distinct indices, none of which
equals `i`. -/
theorem C5_rows_distinct_and_self_free (ind : Fin n → Fin k → ℕ) (r : ℕ)
    (hrn : r < n) (hk : k < 2 ^ 32 - 1) :
    (snn_imp ind r).isSome ∧
    ∀ refs, snn_imp ind r = some refs → ∀ i : Fin n,
      (List.ofFn (refs i)).length = r ∧
      (List.ofFn (refs i)).Nodup ∧
      ∀ t, refs i t ≠ i := by
  have hlen : ∀ i : Fin n, (snnRowList ind r i).length = r := by
    intro i
    rw [snnRowList_length]
    omega
  refine ⟨snn_imp_isSome_of_lengths ind r hlen, ?_⟩
  intro refs hrefs i
  have hrow := snn_imp_rows ind r refs hrefs i (hlen i)
  have hsub : List.Sublist (snnRowList ind r i) (restList ind i) := by
    rw [snnRowList_eq_take]
    exact List.take_sublist r _
  have hnodup : (snnRowList ind r i).Nodup :=
    hsub.nodup (restList_nodup ind i hk).1
  have hni : i ∉ snnRowList ind r i :=
    fun hmem => (restList_nodup ind i hk).2 (hsub.subset hmem)
  refine ⟨by rw [hrow]; exact hlen i, by rw [hrow]; exact hnodup, ?_⟩
  intro t heq
  have hm : refs i t ∈ List.ofFn (refs i) := (List.mem_ofFn _ _).mpr ⟨t, rfl⟩
  rw [heq, hrow] at hm
  exact hni hm

/-- Witness for C5: on `indFour` with `r = 2` the builder succeeds. -/
theorem C5_witness : (snn_imp indFour 2).isSome = true :=
  (C5_rows_distinct_and_self_free indFour 2 (by norm_num) (by norm_num)).1

/-- Claim C8 (confirmed): the builder and the whole scoring pipeline are
deterministic — equal inputs and configuration give equal reference-set
matrices and equal score vectors — and at equal similarity the selection is
fixed by the sort's index order: each ranking row is strictly sorted by the
key (similarity descending, index descending), the order induced by
reversing a stable ascending argsort. -/
theorem C8_deterministic_with_fixed_tie_break (ind ind2 : Fin n → Fin k → ℕ)
    (X X2 : Fin n → Fin d → ℚ) (alpha alpha2 : ℚ) (r : ℕ) (i : Fin n)
    (hi : ind = ind2) (hX : X = X2) (ha : alpha = alpha2)
    (hk : k < 2 ^ 32 - 1) :
    snn_imp ind r = snn_imp ind2 r ∧
    sod X alpha ind r = sod X2 alpha2 ind2 r ∧
    (snnRowList ind r i).Pairwise (fun a b =>
      simCount ind i b < simCount ind i a ∨
        (simCount ind i b = simCount ind i a ∧ (b : ℕ) < (a : ℕ))) := by
  subst hi
  subst hX
  subst ha
  refine ⟨rfl, rfl, ?_⟩
  have hsub : List.Sublist (snnRowList ind r i) (restList ind i) := by
    rw [snnRowList_eq_take]
    exact List.take_sublist r _
  have hnodup : (snnRowList ind r i).Nodup :=
    hsub.nodup (restList_nodup ind i hk).1
  have hni : i ∉ snnRowList ind r i :=
    fun hmem => (restList_nodup ind i hk).2 (hsub.subset hmem)
  have hmemne : ∀ a ∈ snnRowList ind r i, a ≠ i :=
    fun a ha h => hni (h ▸ ha)
  have hpw0 : (snnRowList ind r i).Pairwise
      (fun a b => lexLe (tempRow ind i) b a) :=
    (restList_pairwise ind i).sublist hsub
  refine (hpw0.and hnodup).imp_of_mem ?_
  intro a b ha hb hab
  have hta : tempRow ind i a = simCount ind i a :=
    tempRow_eq_simCount ind i a hk (hmemne a ha)
  have htb : tempRow ind i b = simCount ind i b :=
    tempRow_eq_simCount ind i b hk (hmemne b hb)
  rcases hab.1 with h | ⟨h, hba⟩
  · rw [hta, htb] at h
    exact Or.inl h
  · rw [hta, htb] at h
    refine Or.inr ⟨h, ?_⟩
    have hne : b ≠ a := fun hbe => hab.2 hbe.symm
    exact lt_of_le_of_ne (Fin.le_iff_val_le_val.mp hba) (fun hv => hne (Fin.val_injective hv))

/-- Witness for C8: determinism and the strict tie-break order on
`indThree` with `r = 1`, `Xrel`, `alpha = 1/2`. -/
theorem C8_witness :
    snn_imp indThree 1 = snn_imp indThree 1 ∧
    sod Xrel (1/2) indThree 1 = sod Xrel (1/2) indThree 1 ∧
    (snnRowList indThree 1 0).Pairwise (fun a b =>
      simCount indThree 0 b < simCount indThree 0 a ∨
        (simCount indThree 0 b = simCount indThree 0 a ∧ (b : ℕ) < (a : ℕ))) :=
  C8_deterministic_with_fixed_tie_break indThree indThree Xrel Xrel (1/2) (1/2) 1 0
    rfl rfl rfl (by norm_num)

/-- Claim C10 (corrected): with `n > r` every ranking row has exactly `r`
entries and the builder succeeds; with `n ≤ r` every ranking row has only
`n - 1 < r` entries, and the row assignment fails — so no output matrix is
produced — EXCEPT when `n = 2`, where the length-1 slice broadcasts across
the row (see `C10_counterexample`). -/
theorem C10_builder_needs_more_points_than_ref_set (ind : Fin n → Fin k → ℕ)
    (r : ℕ) (i : Fin n) :
    (r < n → (snnRowList ind r i).length = r ∧ (snn_imp ind r).isSome) ∧
    (n ≤ r → (snnRowList ind r i).length = n - 1 ∧
      (snnRowList ind r i).length < r) ∧
    (n ≤ r → n ≠ 2 → snn_imp ind r = none) := by
  refine ⟨?_, ?_, ?_⟩
  · intro hrn
    constructor
    · rw [snnRowList_length]
      omega
    · refine snn_imp_isSome_of_lengths ind r ?_
      intro i'
      rw [snnRowList_length]
      omega
  · intro hnr
    have hpos : 0 < n := i.pos
    constructor
    · rw [snnRowList_length]
      omega
    · rw [snnRowList_length]
      omega
  · intro hnr hn2
    have hpos : 0 < n := i.pos
    unfold snn_imp
    rw [dif_neg]
    intro hall
    have hi := hall i
    rw [assignRow_eq_none r (snnRowList ind r i) (by rw [snnRowList_length]; omega)
      (by rw [snnRowList_length]; omega)] at hi
    exact absurd hi (by simp)

/-- Witness for C10 (amended): on `indThree` (n = 3) the builder succeeds
with `r = 2 < n` producing rows of length 2; with `r = 3 ≥ n` the ranking
row is shorter than `r` and the builder fails. -/
theorem C10_witness :
    ((snnRowList indThree 2 0).length = 2 ∧ (snn_imp indThree 2).isSome) ∧
    (snnRowList indThree 3 0).length < 3 ∧
    snn_imp indThree 3 = none := by
  refine ⟨?_, ?_, ?_⟩
  · exact (C10_builder_needs_more_points_than_ref_set indThree 2 0).1 (by norm_num)
  · exact ((C10_builder_needs_more_points_than_ref_set indThree 3 0).2.1
      (by norm_num)).2
  · exact (C10_builder_needs_more_points_than_ref_set indThree 3 0).2.2
      (by norm_num) (by norm_num)

/-- Counterexample for C10 as stated: with `n = 2 ≤ ref_set = 2` the slice
for each row has only one entry (fewer than `ref_set`), yet the assignment
does NOT fail — the single entry broadcasts across the row and an output
matrix IS produced. -/
theorem C10_counterexample :
    (snnRowList indTwo 2 0).length = 1 ∧ (snn_imp indTwo 2).isSome = true := by
  constructor
  · decide
  · decide

/-
Section: claims about construction and the fit/score entry points.
-/

/-- Claim C6 (confirmed, spec-modelled): construction succeeds exactly when
`contamination ∈ (0, 1/2)`, `n_neighbors ≥ 1`, `ref_set ∈ [1, n_neighbors)`
(in particular `ref_set ≥ n_neighbors` always fails) and `alpha ∈ (0, 1)`;
on success the configuration is stored verbatim with no scores, and on
failure no detector state is produced (the result is an error). -/
theorem C6_configuration_validation (c : ℚ) (nn rs : ℤ) (a : ℚ) :
    ((mkSOD c nn rs a).isOk = true ↔
      ((0 < c ∧ c < 1/2) ∧ 1 ≤ nn ∧ (1 ≤ rs ∧ rs < nn) ∧ (0 < a ∧ a < 1))) ∧
    (∀ m, mkSOD c nn rs a = Except.ok m →
      m.contamination = c ∧ m.n_neighbors_ = nn ∧ m.ref_set_ = rs ∧
        m.alpha_ = a ∧ m.decision_scores_ = none) := by
  unfold mkSOD
  split_ifs with h1 h2 h3 h4
  · refine ⟨iff_of_true rfl ⟨h1, h2, h3, h4⟩, ?_⟩
    intro m hm
    cases Except.ok.inj hm
    exact ⟨rfl, rfl, rfl, rfl, rfl⟩
  · exact ⟨iff_of_false (by simp [Except.isOk, Except.toBool]) (fun h => h4 h.2.2.2),
      fun m hm => absurd hm (by simp)⟩
  · exact ⟨iff_of_false (by simp [Except.isOk, Except.toBool]) (fun h => h3 h.2.2.1),
      fun m hm => absurd hm (by simp)⟩
  · exact ⟨iff_of_false (by simp [Except.isOk, Except.toBool]) (fun h => h2 h.2.1),
      fun m hm => absurd hm (by simp)⟩
  · exact ⟨iff_of_false (by simp [Except.isOk, Except.toBool]) (fun h => h1 h.1),
      fun m hm => absurd hm (by simp)⟩

/-- Witness for C6: the default configuration (contamination 1/10,
n_neighbors 20, ref_set 10, alpha 4/5) is accepted and stored verbatim. -/
theorem C6_witness :
    (mkSOD (1/10) 20 10 (4/5)).isOk = true ∧
    (∀ m, mkSOD (1/10) 20 10 (4/5) = Except.ok m → m.ref_set_ = 10) := by
  refine ⟨(C6_configuration_validation (1/10) 20 10 (4/5)).1.mpr
    ⟨⟨by norm_num, by norm_num⟩, by norm_num, ⟨by norm_num, by norm_num⟩,
      by norm_num, by norm_num⟩, ?_⟩
  intro m hm
  exact ((C6_configuration_validation (1/10) 20 10 (4/5)).2 m hm).2.2.1

/-- Claim C9 (confirmed, spec-modelled post-processing): `decision_function`
returns the scoring pipeline's value and leaves the detector state
untouched, while `fit` stores exactly that score vector in
`decision_scores_`, leaves every configuration field unchanged, and
triggers the thresholding/labeling post-processing (populating
`threshold_` and `labels_`), returning the updated detector itself;
a pipeline failure propagates and produces no state. -/
theorem C9_fit_stores_scores_and_score_is_pure (m : SODModel)
    (X : Fin n → Fin d → ℚ) (ind : Fin n → Fin k → ℕ) :
    (decision_function m X ind).2 = m ∧
    (decision_function m X ind).1 = sod X m.alpha_ ind m.ref_set_.toNat ∧
    (fit m X ind).map SODModel.decision_scores_ =
      ((decision_function m X ind).1).map some ∧
    (fit m X ind).map SODModel.contamination =
      ((decision_function m X ind).1).map (fun _ => m.contamination) ∧
    (fit m X ind).map SODModel.n_neighbors_ =
      ((decision_function m X ind).1).map (fun _ => m.n_neighbors_) ∧
    (fit m X ind).map SODModel.ref_set_ =
      ((decision_function m X ind).1).map (fun _ => m.ref_set_) ∧
    (fit m X ind).map SODModel.alpha_ =
      ((decision_function m X ind).1).map (fun _ => m.alpha_) ∧
    (fit m X ind).map (fun s => s.threshold_.isSome && s.labels_.isSome) =
      ((decision_function m X ind).1).map (fun _ => true) := by
  refine ⟨rfl, rfl, ?_, ?_, ?_, ?_, ?_, ?_⟩ <;>
  · unfold fit decision_function
    cases sod X m.alpha_ ind m.ref_set_.toNat with
    | none => rfl
    | some scores => simp [processDecisionScores]

end SOD
